import Mathlib

/-!
Verification of the `splash` analysis engine (`src/splash/analyzers.py`,
`src/splash/loader.py`) against its natural-language specification.

The Python code is shallowly embedded: rows are dictionaries from a fixed
column vocabulary to loosely-typed cell values; timestamps are modelled as
rational numbers of seconds (Python `datetime` arithmetic via
`total_seconds()` is exact on the microsecond grid, which embeds in `ℚ`),
parsed integers as `Int`, strings as `String`.  Python object identity
(`is`, `id(...)`) is modelled by a numeric `rid` tag carried by every row:
the loader builds a fresh dict per CSV row, so distinct rows have distinct
tags.  Python truthiness (`or`, `if v:`) is modelled by `Value.truthy`.
Python's stable `list.sort` is modelled by the stable insertion sort
`pySort`.  The structured `parameters` payload is omitted from the value
type: no verified property touches it.
-/

/-- A cell value of a loaded row: absent (missing key or `None`), a raw
string, a parsed integer, or a parsed timestamp (seconds, exact). -/
inductive Value where
  | absent : Value
  | str : String → Value
  | int : Int → Value
  | dt : ℚ → Value
deriving DecidableEq, Repr

/-- Python truthiness of a cell value: `None` and `""` and `0` are falsy,
datetimes are always truthy. -/
def Value.truthy : Value → Bool
  | .absent => false
  | .str s => !s.isEmpty
  | .int n => n != 0
  | .dt _ => true

/-- Refinement by `isinstance(v, datetime)`: the timestamp when the value is
timestamp-typed. -/
def Value.asDt : Value → Option ℚ
  | .dt t => some t
  | _ => none

/-- Test form of `isinstance(v, datetime)`. -/
def Value.isDt : Value → Bool
  | .dt _ => true
  | _ => false

/-- Refinement by `isinstance(v, int)`. -/
def Value.asInt : Value → Option Int
  | .int n => some n
  | _ => none

/-- Python `a or b`: `a` when truthy, else `b`. -/
def pyOr (a b : Value) : Value := if a.truthy then a else b

/-- The recognized column vocabulary (`Column` in `loader.py`). -/
inductive Column where
  | report_name | report_type | parameters | schema_name
  | start_datetime | end_datetime | birt_report_starttime | birt_report_endtime
  | report_execution_status_id | error_code | error_message | error_stack
  | actual_engine | expected_engine | requested_engine | route_to_node
  | output_file_size | report_object_count
deriving DecidableEq, Repr

/-- A loaded row: one cell per recognized column plus the identity tag
`rid` (Python `id(row)`); absent keys hold `Value.absent`. -/
structure Row where
  rid : Nat
  report_name : Value := .absent
  report_type : Value := .absent
  parameters : Value := .absent
  schema_name : Value := .absent
  start_datetime : Value := .absent
  end_datetime : Value := .absent
  birt_report_starttime : Value := .absent
  birt_report_endtime : Value := .absent
  report_execution_status_id : Value := .absent
  error_code : Value := .absent
  error_message : Value := .absent
  error_stack : Value := .absent
  actual_engine : Value := .absent
  expected_engine : Value := .absent
  requested_engine : Value := .absent
  route_to_node : Value := .absent
  output_file_size : Value := .absent
  report_object_count : Value := .absent
deriving DecidableEq, Repr

/-- Models `row.get(col)` (`None`, i.e. `absent`, when missing). -/
def Row.get (r : Row) : Column → Value
  | .report_name => r.report_name
  | .report_type => r.report_type
  | .parameters => r.parameters
  | .schema_name => r.schema_name
  | .start_datetime => r.start_datetime
  | .end_datetime => r.end_datetime
  | .birt_report_starttime => r.birt_report_starttime
  | .birt_report_endtime => r.birt_report_endtime
  | .report_execution_status_id => r.report_execution_status_id
  | .error_code => r.error_code
  | .error_message => r.error_message
  | .error_stack => r.error_stack
  | .actual_engine => r.actual_engine
  | .expected_engine => r.expected_engine
  | .requested_engine => r.requested_engine
  | .route_to_node => r.route_to_node
  | .output_file_size => r.output_file_size
  | .report_object_count => r.report_object_count

/-- Models `Dataset` from `loader.py`: ordered rows, the field-availability set
(computed once at load time), and the original header list. -/
structure Dataset where
  rows : List Row
  available_columns : List Column
  all_headers : List String
deriving Repr

/-- Models `Dataset.has(column)`. -/
def Dataset.has (d : Dataset) (c : Column) : Bool := d.available_columns.contains c

/-! ### Stable sorting (Python `list.sort`) -/

/-- Insert `x` before the first element `y` with `le x y`: combined with
`pySort`'s right-to-left recursion this yields a stable sort. -/
def pyInsert (le : α → α → Bool) (x : α) : List α → List α
  | [] => [x]
  | y :: ys => if le x y then x :: y :: ys else y :: pyInsert le x ys

/-- Stable insertion sort, modelling Python's stable `list.sort(key=...)`. -/
def pySort (le : α → α → Bool) : List α → List α
  | [] => []
  | x :: xs => pyInsert le x (pySort le xs)

/-! ### Kernel-reducible rational helpers

`Rat.sub`, `Rat.mul`, `Rat.inv` are `@[irreducible]` in this toolchain, so
embedded computations use `Rat.divInt` forms (which do reduce) wherever a
concrete witness must evaluate; `ratSub_eq` ties the form back to `-`. -/

/-- Exact rational subtraction `a - b` in a form the kernel evaluates. -/
def ratSub (a b : ℚ) : ℚ :=
  Rat.divInt (a.num * b.den - b.num * a.den) (a.den * b.den)

/-! ### Derived per-row fields (`analyzers.py` helpers) -/

/-- Models `_get_start`: requested start falling back (by truthiness) to the
engine-observed start, refined to a timestamp. -/
def getStart (r : Row) : Option ℚ :=
  (pyOr (r.get .start_datetime) (r.get .birt_report_starttime)).asDt

/-- Models `_get_end`. -/
def getEnd (r : Row) : Option ℚ :=
  (pyOr (r.get .end_datetime) (r.get .birt_report_endtime)).asDt

/-- Models `_get_duration_seconds`: `end - start` when both the `or`-selected
start and the `or`-selected end are timestamp-typed. -/
def getDurationSeconds (r : Row) : Option ℚ :=
  match (pyOr (r.get .start_datetime) (r.get .birt_report_starttime)).asDt,
        (pyOr (r.get .end_datetime) (r.get .birt_report_endtime)).asDt with
  | some s, some e => some (ratSub e s)
  | _, _ => none

/-- Models `_is_failure`: integer status in the failure set `{3, 5}`. -/
def isFailure (r : Row) : Bool :=
  match (r.get .report_execution_status_id).asInt with
  | some n => n == 3 || n == 5
  | none => false

/-- Python `round(x, 2)` on the exact rational value: for `q ≥ 0` this is
`⌊100q + 1/2⌋ / 100`, the nearest multiple of 1/100 (every rounded value in
the verified properties is non-negative, and no property proved here
depends on the tie convention — both sides of each statement use this same
function). -/
def round2 (q : ℚ) : ℚ :=
  Rat.divInt ((q.num * 200 + (q.den : Int)) / (2 * (q.den : Int))) 100

/-! ### Intervals (`analyze_timing` lines 86-104, `analyze_errors` lines 218-234) -/

/-- A `(start, end, row)` triple collected for overlap computations. -/
structure RunInterval where
  start : ℚ
  stop : ℚ
  row : Row
deriving DecidableEq, Repr

/-- The valid-interval list, in dataset order: one triple per row whose
derived start and end are both timestamps (built identically in
`analyze_timing` and `analyze_errors`). -/
def datasetIntervals (d : Dataset) : List RunInterval :=
  d.rows.filterMap fun r =>
    match getStart r, getEnd r with
    | some s, some e => some ⟨s, e, r⟩
    | _, _ => none

/-- Models `key=lambda x: x[0]`: compare triples by start time only. -/
def intervalLe (a b : RunInterval) : Bool := decide (a.start ≤ b.start)

/-- Models `intervals.sort(key=lambda x: x[0])` (stable, ascending by start). -/
def sortedIntervals (d : Dataset) : List RunInterval :=
  pySort intervalLe (datasetIntervals d)

/-! ### Timing analyzer (`analyze_timing`) -/

/-- The applicability gate shared by `analyze_timing` (lines 74-81) and
`analyze_performance` (lines 435-442): a start-capable and an end-capable
timestamp column are both in the availability set. -/
def timingApplicable (d : Dataset) : Bool :=
  (d.has .start_datetime || d.has .birt_report_starttime) &&
  (d.has .end_datetime || d.has .birt_report_endtime)

/-- Models `_DURATION_BUCKETS`: label, lower bound, upper bound (`none` models
`float("inf")`, which every finite duration is below). -/
def durationBuckets : List (String × ℚ × Option ℚ) :=
  [("<1s", 0, some 1), ("1-10s", 1, some 10), ("10s-1m", 10, some 60),
   ("1-5m", 60, some 300), ("5-30m", 300, some 1800), ("30m+", 1800, none)]

/-- Tests `lo <= dur < hi` for one bucket. -/
def bucketMatches (dur : ℚ) (b : String × ℚ × Option ℚ) : Bool :=
  decide (b.2.1 ≤ dur) &&
    (match b.2.2 with
     | some hi => decide (dur < hi)
     | none => true)

/-- The bucket label a row's duration is assigned to: first matching bucket
in list order (`for ... if lo <= dur < hi: ...; break`, lines 97-101),
skipping rows whose duration is missing or negative. -/
def rowBucketLabel (r : Row) : Option String :=
  match getDurationSeconds r with
  | some dur =>
      if decide (0 ≤ dur) then (durationBuckets.find? (bucketMatches dur)).map (fun b => b.1)
      else none
  | none => none

/-- Final count of one labelled bucket over a dataset. -/
def bucketCount (d : Dataset) (label : String) : Nat :=
  d.rows.countP (fun r => rowBucketLabel r == some label)

/-- The overlap-flagging loop (`analyze_timing` lines 109-115): walk
consecutive pairs of the start-sorted interval list; on overlap append
`row_a` unless it is already the last appended element, then append
`row_b`. `acc` is the `overlapping` accumulator. -/
def flagOverlaps : List RunInterval → List Row → List Row
  | a :: b :: rest, acc =>
      if decide (b.start < a.stop) then
        let acc1 := if acc.getLast?.all (fun r => r.rid != a.row.rid) then acc ++ [a.row] else acc
        flagOverlaps (b :: rest) (acc1 ++ [b.row])
      else flagOverlaps (b :: rest) acc
  | _, acc => acc

/-- Deduplicate by identity (`id(r)`) preserving first-seen order
(`analyze_timing` lines 117-123); `seen` is the set of already-seen ids. -/
def dedupById : List Row → List Nat → List Row
  | [], _ => []
  | r :: rest, seen =>
      if seen.contains r.rid then dedupById rest seen
      else r :: dedupById rest (r.rid :: seen)

/-- Models `overlapping_runs`: flagged rows, deduplicated, capped at 50. -/
def overlappingRuns (d : Dataset) : List Row :=
  (dedupById (flagOverlaps (sortedIntervals d) []) []).take 50

/-- The claim-relevant projection of `TimingData`: the duration-bucket
histogram (in fixed bucket order) and the overlapping-runs list.  The
hourly and weekly histograms of the source are not modelled: no verified
property mentions them. -/
structure TimingData where
  duration_buckets : List (String × Nat)
  overlapping_runs : List Row
deriving DecidableEq, Repr

/-- Models `analyze_timing`: `None` unless the availability gate passes. -/
def analyzeTiming (d : Dataset) : Option TimingData :=
  if timingApplicable d then
    some { duration_buckets := durationBuckets.map (fun b => (b.1, bucketCount d b.1)),
           overlapping_runs := overlappingRuns d }
  else none

/-! ### Error analyzer (`analyze_errors`) -/

/-- The `failures` list (lines 236-239): failing rows in dataset order. -/
def failures (d : Dataset) : List Row := d.rows.filter isFailure

/-- Models `row.get(col, default)`. -/
def Row.getD (r : Row) (c : Column) (dflt : Value) : Value :=
  match r.get c with
  | .absent => dflt
  | v => v

/-- One row of the `concurrent_load` table (lines 336-343).  The display
stringification of the start time and error code is not modelled; the raw
values are carried instead. -/
structure ConcurrentEntry where
  report_name : Value
  start : ℚ
  concurrent_count : Nat
  error_code : Value
deriving DecidableEq, Repr

def mkConcurrentEntry (r : Row) (fs : ℚ) (cnt : Nat) : ConcurrentEntry :=
  { report_name := r.getD .report_name (.str ""),
    start := fs,
    concurrent_count := cnt,
    error_code := r.getD .error_code (.str "") }

/-- The pairwise overlap test of lines 330-335: a different row (by
identity) whose interval satisfies `i_start < f_end and i_end > f_start`. -/
def overlapsWith (r : Row) (fs fe : ℚ) (iv : RunInterval) : Bool :=
  (iv.row.rid != r.rid) && decide (iv.start < fe) && decide (fs < iv.stop)

/-- The `concurrent_load` loop (lines 324-343): up to the first 50
failures, skipping those without a valid start and end, counting
overlapping other intervals over the full (sorted) interval list. -/
def concurrentLoadRaw (d : Dataset) : List ConcurrentEntry :=
  ((failures d).take 50).filterMap fun r =>
    match getStart r, getEnd r with
    | some fs, some fe =>
        some (mkConcurrentEntry r fs ((sortedIntervals d).countP (overlapsWith r fs fe)))
    | _, _ => none

/-- Models `key=lambda x: x["concurrent_count"], reverse=True`. -/
def concurrentEntryLe (a b : ConcurrentEntry) : Bool :=
  decide (b.concurrent_count ≤ a.concurrent_count)

/-- Models `concurrent_load` after the final descending stable sort (line 344). -/
def concurrentLoad (d : Dataset) : List ConcurrentEntry :=
  pySort concurrentEntryLe (concurrentLoadRaw d)

/-! ### Engine-routing analyzer (`analyze_engine`, mismatch computation) -/

/-- Models `r.get(col) not in ("", None)` for both engine fields (lines 399-405);
also the present/non-empty part of the mismatch test of lines 390-394. -/
def bothEnginesPresent (r : Row) : Bool :=
  !(r.get .actual_engine == Value.absent) && !(r.get .actual_engine == Value.str "") &&
  !(r.get .expected_engine == Value.absent) && !(r.get .expected_engine == Value.str "")

/-- Membership test of the `mismatches` list (lines 387-397): both engine
values present and non-empty, and unequal. -/
def isEngineMismatch (r : Row) : Bool :=
  bothEnginesPresent r && !(r.get .actual_engine == r.get .expected_engine)

/-- Models `mismatch_rate` (lines 399-412): `None` unless both engine columns are
available and some row has both values populated (`if total_with_both:` is
falsy both for `None` and for `0`); otherwise
`round(len(mismatches) / total_with_both * 100, 2)`. -/
def mismatchRate (d : Dataset) : Option ℚ :=
  if d.has .actual_engine && d.has .expected_engine then
    if d.rows.countP bothEnginesPresent == 0 then none
    else
      some (round2 ((d.rows.countP isEngineMismatch : ℚ) /
        (d.rows.countP bothEnginesPresent : ℚ) * 100))
  else none

/-! ### Inventory analyzer (`analyze_inventory`, report-type breakdown) -/

/-- One `counter[key] += 1` step on an insertion-ordered counter. -/
def counterAdd (c : List (Value × Nat)) (k : Value) : List (Value × Nat) :=
  if c.any (fun p => p.1 == k) then
    c.map (fun p => if p.1 == k then (p.1, p.2 + 1) else p)
  else c ++ [(k, 1)]

/-- The `type_counts` counter (lines 138, 148-151): counts rows with a
truthy `report_type` value, keyed by that value (only meaningful when the
column is available; the surrounding gate lives in `reportsByType`). -/
def typeCounts (d : Dataset) : List (Value × Nat) :=
  d.rows.foldl
    (fun c r => if (r.get .report_type).truthy then counterAdd c (r.get .report_type) else c)
    []

/-- Models `Counter.most_common()`: stable sort by count descending. -/
def mostCommon (c : List (Value × Nat)) : List (Value × Nat) :=
  pySort (fun a b => decide (b.2 ≤ a.2)) c

/-- Models `reports_by_type` (lines 138 and 191):
`dict(type_counts.most_common()) if type_counts else None`; the Python
truthiness of the counter makes both the column-unavailable case and the
empty-counter case `None`. -/
def reportsByType (d : Dataset) : Option (List (Value × Nat)) :=
  if d.has .report_type then
    if (typeCounts d).isEmpty then none else some (mostCommon (typeCounts d))
  else none

/-! ### Performance analyzer (`analyze_performance`) -/

/-- Models `timed_rows` (lines 444-448): rows with a valid non-negative duration,
in dataset order. -/
def timedRows (d : Dataset) : List (ℚ × Row) :=
  d.rows.filterMap fun r =>
    match getDurationSeconds r with
    | some dur => if decide (0 ≤ dur) then some (dur, r) else none
    | none => none

/-- The claim-relevant projection of `PerformanceData`: the slowest-20
table as (report name, rounded duration) pairs.  The optional per-entry
start/engine/queue columns and the scatter and stats blocks of the source
are not modelled: no verified property mentions them, and they do not
affect the `None`-result structure. -/
structure PerformanceData where
  slowest_reports : List (Value × ℚ)
deriving DecidableEq, Repr

/-- Models `analyze_performance`: `None` when the availability gate fails (lines
435-442) and also when no row has a valid non-negative duration (lines
450-451). -/
def analyzePerformance (d : Dataset) : Option PerformanceData :=
  if timingApplicable d then
    if (timedRows d).isEmpty then none
    else
      let sortedTimed := pySort (fun a b : ℚ × Row => decide (b.1 ≤ a.1)) (timedRows d)
      some { slowest_reports := (sortedTimed.take 20).map (fun p => (p.2.getD .report_name (.str ""), round2 p.1)) }
  else none

/-! ### Tenant fan-out (`_build_tenant_json`) -/

/-- The tenant partition Dataset (lines 547-551): the partition's rows with
the PARENT dataset's availability set and header list. -/
def buildTenantDataset (tenantRows : List Row) (d : Dataset) : Dataset :=
  { rows := tenantRows,
    available_columns := d.available_columns,
    all_headers := d.all_headers }

/-- Models the availability gate of `analyze_engine` (lines 368-371). -/
def engineApplicable (d : Dataset) : Bool :=
  d.has .actual_engine || d.has .route_to_node

/-! ### Per-report drill-down (`_build_tenant_json` lines 580-657) -/

/-- The rows of one report bucket: rows whose (defaulted) report name
equals the bucket key (the loop keys buckets by `row.get(REPORT_NAME, "")`
and skips falsy names, so bucket keys are always truthy). -/
def reportRows (rows : List Row) (name : Value) : List Row :=
  rows.filter (fun r => r.getD .report_name (.str "") == name)

/-- The bucket's `durations` list (lines 597-599): valid non-negative
durations in row order. -/
def validDurations (rows : List Row) : List ℚ :=
  rows.filterMap fun r =>
    match getDurationSeconds r with
    | some dur => if decide (0 ≤ dur) then some dur else none
    | none => none

/-- Models `sorted(durations)` (line 639). -/
def sortedDurations (rows : List Row) (name : Value) : List ℚ :=
  pySort (fun a b : ℚ => decide (a ≤ b)) (validDurations (reportRows rows name))

/-- Models `p90_duration_s` (lines 640-644): `None` with fewer than 10 valid
durations, else the ascending-sorted list's entry at index
`int(len * 0.9)`, rounded to 2 decimals.  The float product
`len(sorted_dur) * 0.9` truncates to `⌊9n/10⌋` for every feasible list
length `n` (the relative rounding error of binary `0.9` is ~2.5e-17, far
too small to carry `9n/10` across an integer boundary for any list that
fits in memory), so the index is embedded as `9 * n / 10` in `ℕ`. -/
def p90Duration (rows : List Row) (name : Value) : Option ℚ :=
  if 10 ≤ (sortedDurations rows name).length then
    some (round2 ((sortedDurations rows name).getD
      (9 * (sortedDurations rows name).length / 10) 0))
  else none

/-! ### Specification-side overlap procedure (spec §4.1, for claim C2) -/

/-- Modelled from the spec's words for the overlap procedure: for each
consecutive pair of the start-sorted interval list, flag BOTH records when
the later record's start is strictly before the earlier record's end. -/
def specFlagPairs : List RunInterval → List Row
  | a :: b :: rest =>
      (if decide (b.start < a.stop) then [a.row, b.row] else []) ++ specFlagPairs (b :: rest)
  | _ => []

/-- The spec's full procedure: flag both members of every overlapping
consecutive pair, deduplicate by identity preserving first-seen order,
truncate to 50. -/
def specOverlappingRuns (d : Dataset) : List Row :=
  (dedupById (specFlagPairs (sortedIntervals d)) []).take 50

/-- Accumulator-free form of the flagging loop: `prev` is the identity of
the last element appended so far (`overlapping[-1]`), `none` while the
accumulator is empty. -/
def flagOverlapsPrev : Option Nat → List RunInterval → List Row
  | prev, a :: b :: rest =>
      if decide (b.start < a.stop) then
        (if prev.all (fun p => p != a.row.rid) then [a.row] else []) ++
          b.row :: flagOverlapsPrev (some b.row.rid) (b :: rest)
      else flagOverlapsPrev prev (b :: rest)
  | _, _ => []

/-! ### Claim-side and amended-side definitions -/

/-- Modelled from claim C3's words: duration computed from the requested
pair (`start_datetime`/`end_datetime`) when that pair is present, otherwise
from the engine-observed pair, with the two pairs never mixed, and defined
only when both endpoints of the chosen pair are timestamp-typed. -/
def claimPairDuration (r : Row) : Option ℚ :=
  if (r.get .start_datetime).truthy && (r.get .end_datetime).truthy then
    match (r.get .start_datetime).asDt, (r.get .end_datetime).asDt with
    | some s, some e => some (ratSub e s)
    | _, _ => none
  else
    match (r.get .birt_report_starttime).asDt, (r.get .birt_report_endtime).asDt with
    | some s, some e => some (ratSub e s)
    | _, _ => none

/-- Amended C3, start endpoint: `start_datetime` when truthy, else
`birt_report_starttime` — each endpoint falls back independently. -/
def selectedStart (r : Row) : Value :=
  if (r.get .start_datetime).truthy then r.get .start_datetime
  else r.get .birt_report_starttime

/-- Amended C3, end endpoint. -/
def selectedEnd (r : Row) : Value :=
  if (r.get .end_datetime).truthy then r.get .end_datetime
  else r.get .birt_report_endtime

/-! ### Concrete sample data for witnesses and counterexamples -/

def rowFail : Row :=
  { rid := 1, report_name := .str "a", report_execution_status_id := .int 3,
    start_datetime := .dt 0, end_datetime := .dt 10, error_code := .str "E1" }

def rowDone : Row :=
  { rid := 2, report_name := .str "b", report_execution_status_id := .int 2,
    start_datetime := .dt 5, end_datetime := .dt 15 }

def rowFailNoEnd : Row :=
  { rid := 3, report_name := .str "c", report_execution_status_id := .int 3,
    start_datetime := .dt 1 }

def sampleAvail : List Column :=
  [.report_name, .report_execution_status_id, .start_datetime, .end_datetime]

def sampleHeaders : List String :=
  ["end_datetime", "report_execution_status_id", "report_name", "start_datetime"]

/-- Two temporally overlapping runs, one failed and one completed. -/
def dsOverlap : Dataset := ⟨[rowFail, rowDone], sampleAvail, sampleHeaders⟩

/-- Adds a failed row that has a start but no end timestamp. -/
def dsOmission : Dataset := ⟨[rowFail, rowFailNoEnd, rowDone], sampleAvail, sampleHeaders⟩

/-- A row holding a requested start and an engine-observed end only. -/
def rowMixed : Row := { rid := 4, start_datetime := .dt 0, birt_report_endtime := .dt 100 }

/-- Timestamp columns available but no row carries a timestamp value. -/
def dsNoDurations : Dataset :=
  ⟨[{ rid := 5, report_name := .str "a", report_execution_status_id := .int 2 }],
   sampleAvail, sampleHeaders⟩

/-- Dataset with `report_type` available, but its only value is the empty string. -/
def dsEmptyType : Dataset :=
  ⟨[{ rid := 6, report_name := .str "r", report_type := .str "",
      report_execution_status_id := .int 2 }],
   [.report_name, .report_type, .report_execution_status_id],
   ["report_name", "report_type", "report_execution_status_id"]⟩

/-- Two rows with both engine fields populated (one mismatching), one row
with neither. -/
def dsEngine : Dataset :=
  ⟨[{ rid := 7, report_name := .str "a", report_execution_status_id := .int 2,
      actual_engine := .int 1, expected_engine := .int 1 },
    { rid := 8, report_name := .str "b", report_execution_status_id := .int 2,
      actual_engine := .int 2, expected_engine := .int 3 },
    { rid := 9, report_name := .str "c", report_execution_status_id := .int 2 }],
   [.report_name, .report_execution_status_id, .actual_engine, .expected_engine],
   ["actual_engine", "expected_engine", "report_execution_status_id", "report_name"]⟩

def mkTimedRow (i : Nat) (e : ℚ) : Row :=
  { rid := 100 + i, report_name := .str "a", report_execution_status_id := .int 2,
    start_datetime := .dt 0, end_datetime := .dt e }

/-- Ten executions of report "a" with durations 1..10 seconds. -/
def rows10 : List Row :=
  [mkTimedRow 0 1, mkTimedRow 1 2, mkTimedRow 2 3, mkTimedRow 3 4, mkTimedRow 4 5,
   mkTimedRow 5 6, mkTimedRow 6 7, mkTimedRow 7 8, mkTimedRow 8 9, mkTimedRow 9 10]

/-! ### Theorems -/

theorem pyInsert_perm (le : α → α → Bool) (x : α) (l : List α) :
    List.Perm (pyInsert le x l) (x :: l) := by
  induction l with
  | nil => simp [pyInsert]
  | cons y ys ih =>
    simp only [pyInsert]
    split
    · exact List.Perm.refl _
    · exact (List.Perm.cons y ih).trans (List.Perm.swap x y ys)

theorem pySort_perm (le : α → α → Bool) (l : List α) :
    List.Perm (pySort le l) l := by
  induction l with
  | nil => simp [pySort]
  | cons x xs ih =>
    exact (pyInsert_perm le x (pySort le xs)).trans (List.Perm.cons x ih)

theorem mem_pyInsert {le : α → α → Bool} {x a : α} {l : List α} :
    a ∈ pyInsert le x l ↔ a = x ∨ a ∈ l :=
  (pyInsert_perm le x l).mem_iff.trans List.mem_cons

theorem pairwise_pyInsert {le : α → α → Bool}
    (htot : ∀ a b, le a b = false → le b a = true)
    (htrans : ∀ a b c, le a b = true → le b c = true → le a c = true)
    (x : α) (l : List α) (h : l.Pairwise (fun a b => le a b = true)) :
    (pyInsert le x l).Pairwise (fun a b => le a b = true) := by
  induction l with
  | nil => simp [pyInsert]
  | cons y ys ih =>
    obtain ⟨hy, hys⟩ := List.pairwise_cons.mp h
    simp only [pyInsert]
    split
    · rename_i hxy
      refine List.Pairwise.cons ?_ (List.Pairwise.cons hy hys)
      intro b hb
      rcases List.mem_cons.mp hb with rfl | hb
      · exact hxy
      · exact htrans x y b hxy (hy b hb)
    · rename_i hxy
      refine List.Pairwise.cons ?_ (ih hys)
      intro b hb
      rcases mem_pyInsert.mp hb with hbx | hb
      · subst hbx
        exact htot _ y (by simpa using hxy)
      · exact hy b hb

theorem pairwise_pySort {le : α → α → Bool}
    (htot : ∀ a b, le a b = false → le b a = true)
    (htrans : ∀ a b c, le a b = true → le b c = true → le a c = true)
    (l : List α) : (pySort le l).Pairwise (fun a b => le a b = true) := by
  induction l with
  | nil => simp [pySort]
  | cons x xs ih => exact pairwise_pyInsert htot htrans x (pySort le xs) ih

theorem ratSub_eq (a b : ℚ) : ratSub a b = a - b := by
  rw [ratSub, Rat.divInt_eq_div]
  have ha : (a.den : ℚ) ≠ 0 := Nat.cast_ne_zero.mpr a.den_nz
  have hb : (b.den : ℚ) ≠ 0 := Nat.cast_ne_zero.mpr b.den_nz
  conv_rhs => rw [← Rat.num_div_den a, ← Rat.num_div_den b]
  push_cast
  field_simp
  ring

theorem flagOverlaps_eq_prev (l : List RunInterval) :
    ∀ acc : List Row,
      flagOverlaps l acc = acc ++ flagOverlapsPrev (acc.getLast?.map Row.rid) l := by
  induction l with
  | nil => intro acc; simp [flagOverlaps, flagOverlapsPrev]
  | cons a l ih =>
    intro acc
    cases l with
    | nil => simp [flagOverlaps, flagOverlapsPrev]
    | cons b rest =>
      by_cases hov : decide (b.start < a.stop) = true
      · by_cases hg : (acc.getLast?.map Row.rid).all (fun p => p != a.row.rid) = true
        · have hg2 : acc.getLast?.all (fun r => r.rid != a.row.rid) = true := by
            cases h : acc.getLast? with
            | none => rfl
            | some r => simpa [h, Option.all] using hg
          rw [show flagOverlaps (a :: b :: rest) acc
              = flagOverlaps (b :: rest) ((acc ++ [a.row]) ++ [b.row]) by
            simp [flagOverlaps, hov, hg2]]
          rw [ih]
          simp [flagOverlapsPrev, hov, hg, List.getLast?_append]
        · have hg2 : acc.getLast?.all (fun r => r.rid != a.row.rid) = false := by
            cases h : acc.getLast? with
            | none => simp [h, Option.all] at hg
            | some r => simpa [h, Option.all] using hg
          rw [show flagOverlaps (a :: b :: rest) acc
              = flagOverlaps (b :: rest) (acc ++ [b.row]) by
            simp [flagOverlaps, hov, hg2]]
          rw [ih]
          simp [flagOverlapsPrev, hov, hg, List.getLast?_append]
      · rw [show flagOverlaps (a :: b :: rest) acc = flagOverlaps (b :: rest) acc by
          simp [flagOverlaps, hov]]
        rw [ih]
        simp [flagOverlapsPrev, hov]

theorem dedupById_cons (r : Row) (rest : List Row) (seen : List Nat) :
    dedupById (r :: rest) seen =
      if seen.contains r.rid then dedupById rest seen
      else r :: dedupById rest (r.rid :: seen) := rfl

theorem dedup_flagPrev_eq_spec (l : List RunInterval) :
    ∀ (prev : Option Nat) (seen : List Nat),
      (∀ p, prev = some p → seen.contains p = true) →
      dedupById (flagOverlapsPrev prev l) seen = dedupById (specFlagPairs l) seen := by
  induction l with
  | nil => intro prev seen _; rfl
  | cons a l ih =>
    intro prev seen hcompat
    cases l with
    | nil => rfl
    | cons b rest =>
      have hbstep : ∀ s : List Nat,
          dedupById (b.row :: flagOverlapsPrev (some b.row.rid) (b :: rest)) s =
          dedupById (b.row :: specFlagPairs (b :: rest)) s := by
        intro s
        rw [dedupById_cons]
        conv_rhs => rw [dedupById_cons]
        by_cases hc : s.contains b.row.rid = true
        · rw [if_pos hc, if_pos hc]
          exact ih (some b.row.rid) s (fun p hp => by cases hp; exact hc)
        · rw [if_neg hc, if_neg hc]
          rw [ih (some b.row.rid) (b.row.rid :: s)
            (fun p hp => by cases hp; simp [List.contains_cons])]
      by_cases hov : decide (b.start < a.stop) = true
      · have hspec : specFlagPairs (a :: b :: rest) =
            a.row :: b.row :: specFlagPairs (b :: rest) := by
          simp [specFlagPairs, hov]
        by_cases hg : prev.all (fun p => p != a.row.rid) = true
        · have hcode : flagOverlapsPrev prev (a :: b :: rest) =
              a.row :: b.row :: flagOverlapsPrev (some b.row.rid) (b :: rest) := by
            simp [flagOverlapsPrev, hov, hg]
          rw [hcode, hspec, dedupById_cons]
          conv_rhs => rw [dedupById_cons]
          by_cases hca : seen.contains a.row.rid = true
          · rw [if_pos hca, if_pos hca]
            exact hbstep seen
          · rw [if_neg hca, if_neg hca]
            rw [hbstep (a.row.rid :: seen)]
        · have hga : prev = some a.row.rid := by
            cases hp : prev with
            | none => rw [hp] at hg; exact absurd rfl hg
            | some p =>
              rw [hp] at hg
              have hpa : p = a.row.rid := by simpa using hg
              rw [hpa]
          have hca : seen.contains a.row.rid = true := hcompat _ hga
          have hg2 : prev.all (fun p => p != a.row.rid) = false := by
            cases hb2 : prev.all (fun p => p != a.row.rid)
            · rfl
            · exact absurd hb2 hg
          have hcode : flagOverlapsPrev prev (a :: b :: rest) =
              b.row :: flagOverlapsPrev (some b.row.rid) (b :: rest) := by
            simp [flagOverlapsPrev, hov, hg2]
          rw [hcode, hspec]
          conv_rhs => rw [dedupById_cons]
          rw [if_pos hca]
          exact hbstep seen
      · have hcode : flagOverlapsPrev prev (a :: b :: rest) =
            flagOverlapsPrev prev (b :: rest) := by
          simp [flagOverlapsPrev, hov]
        have hspec2 : specFlagPairs (a :: b :: rest) = specFlagPairs (b :: rest) := by
          simp [specFlagPairs, hov]
        rw [hcode, hspec2]
        exact ih prev seen hcompat

/-! ### Supporting lemmas -/

theorem bool_eq_false {b : Bool} (h : ¬b = true) : b = false := by
  cases b
  · rfl
  · exact absurd rfl h

theorem counterAdd_ne_nil (c : List (Value × Nat)) (k : Value) : counterAdd c k ≠ [] := by
  unfold counterAdd
  split
  · rename_i hany
    intro h
    have hc : c = [] := List.map_eq_nil_iff.mp h
    subst hc
    simp at hany
  · simp

theorem typeCountsFold_eq_nil (l : List Row) :
    ∀ c : List (Value × Nat),
      l.foldl
        (fun c r => if (r.get .report_type).truthy then counterAdd c (r.get .report_type) else c)
        c = [] ↔
      (c = [] ∧ ∀ r ∈ l, (r.get .report_type).truthy = false) := by
  induction l with
  | nil => intro c; simp
  | cons r t ih =>
    intro c
    simp only [List.foldl_cons]
    by_cases htr : (r.get .report_type).truthy = true
    · rw [if_pos htr]
      rw [ih]
      constructor
      · rintro ⟨hadd, -⟩
        exact absurd hadd (counterAdd_ne_nil c (r.get .report_type))
      · rintro ⟨-, hall⟩
        have := hall r (List.mem_cons_self r t)
        rw [htr] at this
        cases this
    · rw [if_neg htr]
      rw [ih]
      constructor
      · rintro ⟨hc, hall⟩
        refine ⟨hc, fun x hx => ?_⟩
        rcases List.mem_cons.mp hx with rfl | hx
        · simpa using htr
        · exact hall x hx
      · rintro ⟨hc, hall⟩
        exact ⟨hc, fun x hx => hall x (List.mem_cons_of_mem r hx)⟩

theorem typeCounts_eq_nil_iff (d : Dataset) :
    typeCounts d = [] ↔ ∀ r ∈ d.rows, (r.get .report_type).truthy = false := by
  unfold typeCounts
  rw [typeCountsFold_eq_nil]
  simp

/-! ### Claim theorems -/

/-- Claim C3, counterexample: `_get_duration_seconds` mixes the two
timestamp pairs.  On a row holding only a requested start (`start_datetime
= 0s`) and an engine-observed end (`birt_report_endtime = 100s`), the code
derives a 100-second duration from one endpoint of each pair, while the
claim's never-mix pair selection yields no duration at all. -/
theorem duration_mixes_pairs_counterexample :
    getDurationSeconds rowMixed = some 100 ∧
    claimPairDuration rowMixed = none ∧
    rowMixed.get .end_datetime = Value.absent ∧
    rowMixed.get .birt_report_starttime = Value.absent ∧
    (rowMixed.get .start_datetime).isDt = true ∧
    (rowMixed.get .birt_report_endtime).isDt = true := by
  decide

/-- Claim C3 amended: each endpoint falls back independently by Python
truthiness — start is `start_datetime` when truthy else
`birt_report_starttime`, end is `end_datetime` when truthy else
`birt_report_endtime` — and the duration `end - start` is defined exactly
when both selected values are timestamp-typed, so the two pairs CAN be
mixed (one endpoint from each). -/
theorem duration_endpoints_fallback (r : Row) :
    getDurationSeconds r =
      match (selectedStart r).asDt, (selectedEnd r).asDt with
      | some s, some e => some (ratSub e s)
      | _, _ => none := rfl

/-- Witness for `duration_endpoints_fallback` at a concrete row. -/
theorem duration_endpoints_fallback_witness :
    getDurationSeconds rowFail =
      match (selectedStart rowFail).asDt, (selectedEnd rowFail).asDt with
      | some s, some e => some (ratSub e s)
      | _, _ => none := duration_endpoints_fallback rowFail

/-- Claim C4, counterexample: with `report_type` in the availability set
but only empty-string values in it, the `type_counts` counter stays empty,
Python truthiness of the empty counter fails, and `reports_by_type` is
`None` — not an empty mapping — although the column is available. -/
theorem reports_by_type_collapse_counterexample :
    Dataset.has dsEmptyType .report_type = true ∧ reportsByType dsEmptyType = none := by
  decide

/-- Claim C4 amended: `reports_by_type` is `None` exactly when the
`report_type` column is unavailable OR no row carries a truthy
`report_type` value; otherwise it is the (necessarily non-empty) count
mapping. -/
theorem reports_by_type_none_iff (d : Dataset) :
    reportsByType d = none ↔
      (Dataset.has d .report_type = false ∨
        ∀ r ∈ d.rows, (r.get .report_type).truthy = false) := by
  unfold reportsByType
  by_cases hh : Dataset.has d .report_type = true
  · rw [if_pos hh]
    by_cases he : (typeCounts d).isEmpty = true
    · rw [if_pos he]
      have hnil : typeCounts d = [] := List.isEmpty_iff.mp he
      constructor
      · intro _
        exact Or.inr ((typeCounts_eq_nil_iff d).mp hnil)
      · intro _
        rfl
    · rw [if_neg he]
      constructor
      · intro h
        exact absurd h (by simp)
      · intro h
        rcases h with h | h
        · rw [hh] at h
          cases h
        · have : typeCounts d = [] := (typeCounts_eq_nil_iff d).mpr h
          exact absurd (by simp [this]) he
  · rw [if_neg hh]
    simp [bool_eq_false hh]

/-- Claim C5, counterexample: on a dataset whose availability set passes
the timing gate but whose rows carry no timestamp values, `analyze_timing`
returns a (zero-filled) result while `analyze_performance` returns `None`
via its extra `if not timed_rows` early return, so the two are not `None`
under the same condition. -/
theorem performance_not_iff_timing_counterexample :
    (analyzeTiming dsNoDurations).isSome = true ∧
    analyzePerformance dsNoDurations = none := by
  decide

/-- Claim C5 amended: `analyze_performance` is `None` iff `analyze_timing`
is `None` (the shared availability gate) OR no row has a valid
non-negative duration. -/
theorem performance_none_iff (d : Dataset) :
    analyzePerformance d = none ↔ (analyzeTiming d = none ∨ timedRows d = []) := by
  unfold analyzePerformance analyzeTiming
  by_cases hg : timingApplicable d = true
  · rw [if_pos hg, if_pos hg]
    by_cases he : (timedRows d).isEmpty = true
    · rw [if_pos he]
      simp [List.isEmpty_iff.mp he]
    · rw [if_neg he]
      constructor
      · intro h
        exact absurd h (by simp)
      · intro h
        rcases h with h | h
        · cases h
        · exact absurd (by simp [h]) he
  · rw [if_neg hg, if_neg hg]
    simp

/-- Claim C8: every tenant partition Dataset built by `_build_tenant_json`
carries the parent's field-availability set unchanged, so every
availability test — and with it every analyzer's availability gate —
agrees between the global Dataset and the partition. -/
theorem tenant_partition_availability (tenantRows : List Row) (d : Dataset) :
    (buildTenantDataset tenantRows d).available_columns = d.available_columns ∧
    (∀ c, Dataset.has (buildTenantDataset tenantRows d) c = Dataset.has d c) ∧
    timingApplicable (buildTenantDataset tenantRows d) = timingApplicable d ∧
    engineApplicable (buildTenantDataset tenantRows d) = engineApplicable d ∧
    ((analyzeTiming (buildTenantDataset tenantRows d)).isSome =
      (analyzeTiming d).isSome) := by
  refine ⟨rfl, fun c => rfl, rfl, rfl, ?_⟩
  have hgate : timingApplicable (buildTenantDataset tenantRows d) = timingApplicable d := rfl
  by_cases hg : timingApplicable d = true
  · simp [analyzeTiming, hgate, hg]
  · simp [analyzeTiming, hgate, bool_eq_false hg]

/-- Claim C6: when both engine columns are available, `mismatch_rate` is
`None` exactly when no row has both engine values present and non-empty,
and otherwise equals `round(mismatches / with_both * 100, 2)` where
`with_both` counts rows with both values present and non-empty and
`mismatches` counts those of them whose two values are unequal. -/
theorem mismatch_rate_correct (d : Dataset)
    (ha : Dataset.has d .actual_engine = true)
    (he : Dataset.has d .expected_engine = true) :
    (mismatchRate d = none ↔ d.rows.countP bothEnginesPresent = 0) ∧
    (∀ b : Nat, d.rows.countP bothEnginesPresent = b → 0 < b →
      mismatchRate d =
        some (round2 ((d.rows.countP isEngineMismatch : ℚ) / (b : ℚ) * 100))) := by
  unfold mismatchRate
  rw [ha, he]
  simp only [Bool.and_self, if_true]
  constructor
  · constructor
    · intro h
      by_cases hz : d.rows.countP bothEnginesPresent = 0
      · exact hz
      · rw [if_neg (by simpa using hz)] at h
        cases h
    · intro hz
      rw [if_pos (by simpa using hz)]
  · intro b hb hpos
    rw [if_neg (by simp [hb, Nat.pos_iff_ne_zero.mp hpos]), hb]

/-- Witness for `mismatch_rate_correct`: on `dsEngine` two rows have both
engines populated and one of them mismatches, giving a 50.0% rate. -/
theorem mismatch_rate_correct_witness : mismatchRate dsEngine = some 50 := by
  have hc : List.countP isEngineMismatch dsEngine.rows = 1 := by decide
  have h := (mismatch_rate_correct dsEngine (by decide) (by decide)).2 2 (by decide) (by decide)
  rw [h, hc]
  norm_num [round2]
  decide

/-- Claim C2: where the Timing Analyzer applies, `overlapping_runs` equals
the spec's procedure — valid-interval records sorted by start ascending
(stable), both members of each overlapping consecutive pair flagged,
deduplicated by identity preserving first-seen order, truncated to 50.
The code's extra `overlapping[-1] is not row_a` guard only suppresses
immediate duplicates that deduplication would remove anyway. -/
theorem overlapping_runs_match_spec (d : Dataset) (h : timingApplicable d = true) :
    (analyzeTiming d).map TimingData.overlapping_runs = some (specOverlappingRuns d) := by
  unfold analyzeTiming
  rw [if_pos h]
  show some (overlappingRuns d) = some (specOverlappingRuns d)
  unfold overlappingRuns specOverlappingRuns
  rw [flagOverlaps_eq_prev]
  simp only [List.getLast?_nil, List.nil_append]
  rw [dedup_flagPrev_eq_spec (sortedIntervals d) (Option.map Row.rid none) []
    (fun p hp => by simp at hp)]

/-- Witness for `overlapping_runs_match_spec` on a concrete two-run
overlapping dataset. -/
theorem overlapping_runs_match_spec_witness :
    (analyzeTiming dsOverlap).map TimingData.overlapping_runs =
      some (specOverlappingRuns dsOverlap) :=
  overlapping_runs_match_spec dsOverlap (by decide)

/-- Claim C1: the concurrent-load table is sorted by concurrent count
descending, and each of the first 50 failures with a valid start and end
contributes an entry whose count is the number of intervals in the full
interval set, other than the failure's own (excluded by identity), with
`other.start < failure.end` and `other.end > failure.start`; an interval
built from the failure row itself never satisfies the counting predicate. -/
theorem concurrent_load_at_failure (d : Dataset) :
    List.Sorted (fun a b => b.concurrent_count ≤ a.concurrent_count) (concurrentLoad d) ∧
    ∀ r ∈ (failures d).take 50, ∀ fs fe : ℚ,
      getStart r = some fs → getEnd r = some fe →
      (∀ iv ∈ datasetIntervals d, iv.row = r → overlapsWith r fs fe iv = false) ∧
      mkConcurrentEntry r fs ((datasetIntervals d).countP (overlapsWith r fs fe)) ∈
        concurrentLoad d := by
  constructor
  · have htot : ∀ a b : ConcurrentEntry,
        concurrentEntryLe a b = false → concurrentEntryLe b a = true := by
      intro a b hf
      have := of_decide_eq_false hf
      exact decide_eq_true (by omega)
    have htrans : ∀ a b c : ConcurrentEntry,
        concurrentEntryLe a b = true → concurrentEntryLe b c = true →
        concurrentEntryLe a c = true := by
      intro a b c h1 h2
      have h1' := of_decide_eq_true h1
      have h2' := of_decide_eq_true h2
      exact decide_eq_true (by omega)
    exact (pairwise_pySort htot htrans (concurrentLoadRaw d)).imp
      (fun h => of_decide_eq_true h)
  · intro r hr fs fe hfs hfe
    constructor
    · intro iv hiv hrow
      simp [overlapsWith, hrow]
    · have hmemraw : mkConcurrentEntry r fs
          ((sortedIntervals d).countP (overlapsWith r fs fe)) ∈ concurrentLoadRaw d := by
        apply List.mem_filterMap.mpr
        exact ⟨r, hr, by rw [hfs, hfe]⟩
      have hcount : (sortedIntervals d).countP (overlapsWith r fs fe) =
          (datasetIntervals d).countP (overlapsWith r fs fe) :=
        List.Perm.countP_eq _ (pySort_perm intervalLe (datasetIntervals d))
      rw [hcount] at hmemraw
      exact (pySort_perm concurrentEntryLe (concurrentLoadRaw d)).mem_iff.mpr hmemraw

/-- Witness for `concurrent_load_at_failure`: on `dsOverlap` the single
failure overlaps one other run, so its entry with count 1 is present. -/
theorem concurrent_load_at_failure_witness :
    mkConcurrentEntry rowFail 0 1 ∈ concurrentLoad dsOverlap := by
  have h := ((concurrent_load_at_failure dsOverlap).2 rowFail (by decide) 0 10
    (by decide) (by decide)).2
  have hc : (datasetIntervals dsOverlap).countP (overlapsWith rowFail 0 10) = 1 := by decide
  rw [hc] at h
  exact h

theorem filterMapEntry_length (d : Dataset) (l : List Row) :
    (l.filterMap (fun r =>
      match getStart r, getEnd r with
      | some fs, some fe =>
          some (mkConcurrentEntry r fs ((sortedIntervals d).countP (overlapsWith r fs fe)))
      | _, _ => none)).length =
    l.countP (fun r => (getStart r).isSome && (getEnd r).isSome) := by
  induction l with
  | nil => rfl
  | cons r t ih =>
    rw [List.filterMap_cons, List.countP_cons]
    cases hs : getStart r with
    | none => simpa [hs] using ih
    | some fs =>
      cases hend : getEnd r with
      | none => simpa [hs, hend] using ih
      | some fe => simpa [hs, hend] using ih

/-- Claim C10: failures among the first 50 lacking a valid start or end
are omitted entirely — the table's length counts exactly the valid ones
among the first 50 — and every entry arises from a valid failure among the
first 50, so later failures are never considered. -/
theorem concurrent_load_omission (d : Dataset) :
    (concurrentLoad d).length =
      ((failures d).take 50).countP (fun r => (getStart r).isSome && (getEnd r).isSome) ∧
    ∀ e ∈ concurrentLoad d, ∃ r ∈ (failures d).take 50, ∃ fs fe : ℚ,
      getStart r = some fs ∧ getEnd r = some fe ∧
      e = mkConcurrentEntry r fs ((datasetIntervals d).countP (overlapsWith r fs fe)) := by
  constructor
  · unfold concurrentLoad
    rw [(pySort_perm concurrentEntryLe (concurrentLoadRaw d)).length_eq]
    exact filterMapEntry_length d _
  · intro e he
    have heraw : e ∈ concurrentLoadRaw d :=
      (pySort_perm concurrentEntryLe (concurrentLoadRaw d)).mem_iff.mp he
    obtain ⟨r, hr, hfr⟩ := List.mem_filterMap.mp heraw
    cases hs : getStart r with
    | none => rw [hs] at hfr; cases hfr
    | some fs =>
      cases hend : getEnd r with
      | none => rw [hs, hend] at hfr; cases hfr
      | some fe =>
        rw [hs, hend] at hfr
        have hcount : (sortedIntervals d).countP (overlapsWith r fs fe) =
            (datasetIntervals d).countP (overlapsWith r fs fe) :=
          List.Perm.countP_eq _ (pySort_perm intervalLe (datasetIntervals d))
        refine ⟨r, hr, fs, fe, hs, hend, ?_⟩
        cases hfr
        rw [hcount]

/-- Witness for `concurrent_load_omission`: on `dsOmission` two failures
are in range but only one has valid timestamps, so the table has exactly
one entry, and that entry decomposes as the theorem states. -/
theorem concurrent_load_omission_witness :
    (concurrentLoad dsOmission).length = 1 ∧
    (∃ r ∈ (failures dsOmission).take 50, ∃ fs fe : ℚ,
      getStart r = some fs ∧ getEnd r = some fe ∧
      mkConcurrentEntry rowFail 0 1 =
        mkConcurrentEntry r fs ((datasetIntervals dsOmission).countP (overlapsWith r fs fe))) := by
  constructor
  · rw [(concurrent_load_omission dsOmission).1]
    decide
  · exact (concurrent_load_omission dsOmission).2 (mkConcurrentEntry rowFail 0 1) (by decide)

/-- Claim C9: in the per-report drill-down, `p90_duration_s` is `None`
with fewer than 10 valid durations and otherwise is the entry at index
`⌊0.9 · n⌋` of the ascending-sorted valid-duration list, rounded to 2
decimals. -/
theorem p90_percentile_correct (rows : List Row) (name : Value) :
    ((validDurations (reportRows rows name)).length < 10 → p90Duration rows name = none) ∧
    List.Sorted (· ≤ ·) (sortedDurations rows name) ∧
    List.Perm (sortedDurations rows name) (validDurations (reportRows rows name)) ∧
    (∀ n : Nat, (validDurations (reportRows rows name)).length = n → 10 ≤ n →
      p90Duration rows name =
        some (round2 ((sortedDurations rows name).getD (Nat.floor ((9 : ℚ) / 10 * n)) 0))) := by
  have hperm : List.Perm (sortedDurations rows name) (validDurations (reportRows rows name)) :=
    pySort_perm _ _
  have hlen : (sortedDurations rows name).length =
      (validDurations (reportRows rows name)).length := hperm.length_eq
  refine ⟨?_, ?_, hperm, ?_⟩
  · intro hlt
    unfold p90Duration
    rw [if_neg (by omega)]
  · have htot : ∀ a b : ℚ, decide (a ≤ b) = false → decide (b ≤ a) = true := by
      intro a b h
      exact decide_eq_true (le_of_not_le (of_decide_eq_false h))
    have htrans : ∀ a b c : ℚ,
        decide (a ≤ b) = true → decide (b ≤ c) = true → decide (a ≤ c) = true := by
      intro a b c h1 h2
      exact decide_eq_true (le_trans (of_decide_eq_true h1) (of_decide_eq_true h2))
    exact (pairwise_pySort htot htrans _).imp (fun h => of_decide_eq_true h)
  · intro n hn h10
    have hidx : Nat.floor ((9 : ℚ) / 10 * n) = 9 * n / 10 := by
      rw [show (9 : ℚ) / 10 * n = ((9 * n : ℕ) : ℚ) / ((10 : ℕ) : ℚ) by push_cast; ring,
        Nat.floor_div_nat, Nat.floor_natCast]
    unfold p90Duration
    rw [if_pos (by omega), hidx, hlen, hn]

/-- Witness for `p90_percentile_correct`: ten runs of durations 1..10
seconds; index ⌊0.9·10⌋ = 9 of the sorted list holds 10. -/
theorem p90_percentile_correct_witness :
    p90Duration rows10 (Value.str "a") = some 10 := by
  have h := (p90_percentile_correct rows10 (Value.str "a")).2.2.2 10 (by decide) (by decide)
  rw [h, show Nat.floor ((9 : ℚ) / 10 * (10 : ℕ)) = 9 by norm_num]
  decide

theorem bucket_find_eval (dur : ℚ) (h0 : 0 ≤ dur) :
    durationBuckets.countP (bucketMatches dur) = 1 ∧
    ∃ bkt, durationBuckets.find? (bucketMatches dur) = some bkt ∧
      bucketMatches dur bkt = true := by
  rcases lt_or_le dur 1 with h1 | h1
  · have m0 : bucketMatches dur ("<1s", 0, some 1) = true := by
      simp [bucketMatches, h0, h1]
    have m1 : bucketMatches dur ("1-10s", 1, some 10) = false := by
      simp [bucketMatches, (by linarith : ¬ (1 : ℚ) ≤ dur)]
    have m2 : bucketMatches dur ("10s-1m", 10, some 60) = false := by
      simp [bucketMatches, (by linarith : ¬ (10 : ℚ) ≤ dur)]
    have m3 : bucketMatches dur ("1-5m", 60, some 300) = false := by
      simp [bucketMatches, (by linarith : ¬ (60 : ℚ) ≤ dur)]
    have m4 : bucketMatches dur ("5-30m", 300, some 1800) = false := by
      simp [bucketMatches, (by linarith : ¬ (300 : ℚ) ≤ dur)]
    have m5 : bucketMatches dur ("30m+", 1800, none) = false := by
      simp [bucketMatches, (by linarith : ¬ (1800 : ℚ) ≤ dur)]
    refine ⟨?_, ("<1s", 0, some 1), ?_, m0⟩
    · simp [durationBuckets, m0, m1, m2, m3, m4, m5]
    · simp [durationBuckets, List.find?_cons, m0, m1, m2, m3, m4, m5]
  rcases lt_or_le dur 10 with h2 | h2
  · have m0 : bucketMatches dur ("<1s", 0, some 1) = false := by
      simp [bucketMatches, (by linarith : ¬ dur < 1)]
    have m1 : bucketMatches dur ("1-10s", 1, some 10) = true := by
      simp [bucketMatches, h1, h2]
    have m2 : bucketMatches dur ("10s-1m", 10, some 60) = false := by
      simp [bucketMatches, (by linarith : ¬ (10 : ℚ) ≤ dur)]
    have m3 : bucketMatches dur ("1-5m", 60, some 300) = false := by
      simp [bucketMatches, (by linarith : ¬ (60 : ℚ) ≤ dur)]
    have m4 : bucketMatches dur ("5-30m", 300, some 1800) = false := by
      simp [bucketMatches, (by linarith : ¬ (300 : ℚ) ≤ dur)]
    have m5 : bucketMatches dur ("30m+", 1800, none) = false := by
      simp [bucketMatches, (by linarith : ¬ (1800 : ℚ) ≤ dur)]
    refine ⟨?_, ("1-10s", 1, some 10), ?_, m1⟩
    · simp [durationBuckets, m0, m1, m2, m3, m4, m5]
    · simp [durationBuckets, List.find?_cons, m0, m1, m2, m3, m4, m5]
  rcases lt_or_le dur 60 with h3 | h3
  · have m0 : bucketMatches dur ("<1s", 0, some 1) = false := by
      simp [bucketMatches, (by linarith : ¬ dur < 1)]
    have m1 : bucketMatches dur ("1-10s", 1, some 10) = false := by
      simp [bucketMatches, (by linarith : ¬ dur < 10)]
    have m2 : bucketMatches dur ("10s-1m", 10, some 60) = true := by
      simp [bucketMatches, h2, h3]
    have m3 : bucketMatches dur ("1-5m", 60, some 300) = false := by
      simp [bucketMatches, (by linarith : ¬ (60 : ℚ) ≤ dur)]
    have m4 : bucketMatches dur ("5-30m", 300, some 1800) = false := by
      simp [bucketMatches, (by linarith : ¬ (300 : ℚ) ≤ dur)]
    have m5 : bucketMatches dur ("30m+", 1800, none) = false := by
      simp [bucketMatches, (by linarith : ¬ (1800 : ℚ) ≤ dur)]
    refine ⟨?_, ("10s-1m", 10, some 60), ?_, m2⟩
    · simp [durationBuckets, m0, m1, m2, m3, m4, m5]
    · simp [durationBuckets, List.find?_cons, m0, m1, m2, m3, m4, m5]
  rcases lt_or_le dur 300 with h4 | h4
  · have m0 : bucketMatches dur ("<1s", 0, some 1) = false := by
      simp [bucketMatches, (by linarith : ¬ dur < 1)]
    have m1 : bucketMatches dur ("1-10s", 1, some 10) = false := by
      simp [bucketMatches, (by linarith : ¬ dur < 10)]
    have m2 : bucketMatches dur ("10s-1m", 10, some 60) = false := by
      simp [bucketMatches, (by linarith : ¬ dur < 60)]
    have m3 : bucketMatches dur ("1-5m", 60, some 300) = true := by
      simp [bucketMatches, h3, h4]
    have m4 : bucketMatches dur ("5-30m", 300, some 1800) = false := by
      simp [bucketMatches, (by linarith : ¬ (300 : ℚ) ≤ dur)]
    have m5 : bucketMatches dur ("30m+", 1800, none) = false := by
      simp [bucketMatches, (by linarith : ¬ (1800 : ℚ) ≤ dur)]
    refine ⟨?_, ("1-5m", 60, some 300), ?_, m3⟩
    · simp [durationBuckets, m0, m1, m2, m3, m4, m5]
    · simp [durationBuckets, List.find?_cons, m0, m1, m2, m3, m4, m5]
  rcases lt_or_le dur 1800 with h5 | h5
  · have m0 : bucketMatches dur ("<1s", 0, some 1) = false := by
      simp [bucketMatches, (by linarith : ¬ dur < 1)]
    have m1 : bucketMatches dur ("1-10s", 1, some 10) = false := by
      simp [bucketMatches, (by linarith : ¬ dur < 10)]
    have m2 : bucketMatches dur ("10s-1m", 10, some 60) = false := by
      simp [bucketMatches, (by linarith : ¬ dur < 60)]
    have m3 : bucketMatches dur ("1-5m", 60, some 300) = false := by
      simp [bucketMatches, (by linarith : ¬ dur < 300)]
    have m4 : bucketMatches dur ("5-30m", 300, some 1800) = true := by
      simp [bucketMatches, h4, h5]
    have m5 : bucketMatches dur ("30m+", 1800, none) = false := by
      simp [bucketMatches, (by linarith : ¬ (1800 : ℚ) ≤ dur)]
    refine ⟨?_, ("5-30m", 300, some 1800), ?_, m4⟩
    · simp [durationBuckets, m0, m1, m2, m3, m4, m5]
    · simp [durationBuckets, List.find?_cons, m0, m1, m2, m3, m4, m5]
  · have m0 : bucketMatches dur ("<1s", 0, some 1) = false := by
      simp [bucketMatches, (by linarith : ¬ dur < 1)]
    have m1 : bucketMatches dur ("1-10s", 1, some 10) = false := by
      simp [bucketMatches, (by linarith : ¬ dur < 10)]
    have m2 : bucketMatches dur ("10s-1m", 10, some 60) = false := by
      simp [bucketMatches, (by linarith : ¬ dur < 60)]
    have m3 : bucketMatches dur ("1-5m", 60, some 300) = false := by
      simp [bucketMatches, (by linarith : ¬ dur < 300)]
    have m4 : bucketMatches dur ("5-30m", 300, some 1800) = false := by
      simp [bucketMatches, (by linarith : ¬ dur < 1800)]
    have m5 : bucketMatches dur ("30m+", 1800, none) = true := by
      simp [bucketMatches, h5]
    refine ⟨?_, ("30m+", 1800, none), ?_, m5⟩
    · simp [durationBuckets, m0, m1, m2, m3, m4, m5]
    · simp [durationBuckets, List.find?_cons, m0, m1, m2, m3, m4, m5]

theorem bucket_sum_list (l : List Row) :
    l.countP (fun r => rowBucketLabel r == some "<1s") +
    l.countP (fun r => rowBucketLabel r == some "1-10s") +
    l.countP (fun r => rowBucketLabel r == some "10s-1m") +
    l.countP (fun r => rowBucketLabel r == some "1-5m") +
    l.countP (fun r => rowBucketLabel r == some "5-30m") +
    l.countP (fun r => rowBucketLabel r == some "30m+") =
    l.countP (fun r => (getDurationSeconds r).any fun dur => decide (0 ≤ dur)) := by
  induction l with
  | nil => rfl
  | cons r t ih =>
    simp only [List.countP_cons]
    rcases hgd : getDurationSeconds r with _ | dur
    · have hlab : rowBucketLabel r = none := by simp [rowBucketLabel, hgd]
      simp only [hlab, hgd]
      simp
      omega
    · by_cases hpos : (0 : ℚ) ≤ dur
      · obtain ⟨-, bkt, hfind, -⟩ := bucket_find_eval dur hpos
        have hlab : rowBucketLabel r = some bkt.1 := by
          simp [rowBucketLabel, hgd, hpos, hfind]
        have hmem : bkt ∈ durationBuckets := List.mem_of_find?_eq_some hfind
        have hval : ((getDurationSeconds r).any fun dur => decide (0 ≤ dur)) = true := by
          simp [hgd, hpos]
        unfold durationBuckets at hmem
        fin_cases hmem <;> simp only [hlab, hval] <;> simp [hpos] <;> omega
      · have hlab : rowBucketLabel r = none := by
          simp [rowBucketLabel, hgd, hpos]
        simp only [hlab]
        simp [hpos]
        omega

/-- Claim C7: for every non-negative duration exactly one bucket matches —
the one `find?` (first match in ascending order) returns — negative
durations are assigned no bucket, and the six bucket counts sum to the
number of rows with a valid non-negative duration. -/
theorem duration_bucket_partition :
    (∀ dur : ℚ, 0 ≤ dur →
      durationBuckets.countP (bucketMatches dur) = 1 ∧
      ∃ bkt, durationBuckets.find? (bucketMatches dur) = some bkt ∧
        bucketMatches dur bkt = true) ∧
    (∀ (r : Row) (dur : ℚ), getDurationSeconds r = some dur → dur < 0 →
      rowBucketLabel r = none) ∧
    (∀ (r : Row) (dur : ℚ), getDurationSeconds r = some dur → 0 ≤ dur →
      ∀ bkt, durationBuckets.find? (bucketMatches dur) = some bkt →
        rowBucketLabel r = some bkt.1) ∧
    (∀ d : Dataset,
      bucketCount d "<1s" + bucketCount d "1-10s" + bucketCount d "10s-1m" +
      bucketCount d "1-5m" + bucketCount d "5-30m" + bucketCount d "30m+" =
      d.rows.countP (fun r => (getDurationSeconds r).any fun dur => decide (0 ≤ dur))) := by
  refine ⟨fun dur h0 => bucket_find_eval dur h0, ?_, ?_, ?_⟩
  · intro r dur hgd hneg
    simp [rowBucketLabel, hgd, not_le.mpr hneg]
  · intro r dur hgd hpos bkt hfind
    simp [rowBucketLabel, hgd, hpos, hfind]
  · intro d
    exact bucket_sum_list d.rows

/-- Witness for `duration_bucket_partition` at duration 30 s and on the
concrete dataset `dsOverlap` (two 10-second runs). -/
theorem duration_bucket_partition_witness :
    durationBuckets.countP (bucketMatches 30) = 1 ∧
    (bucketCount dsOverlap "<1s" + bucketCount dsOverlap "1-10s" +
     bucketCount dsOverlap "10s-1m" + bucketCount dsOverlap "1-5m" +
     bucketCount dsOverlap "5-30m" + bucketCount dsOverlap "30m+" =
     dsOverlap.rows.countP (fun r => (getDurationSeconds r).any fun dur => decide (0 ≤ dur))) :=
  ⟨(duration_bucket_partition.1 30 (by decide)).1, duration_bucket_partition.2.2.2 dsOverlap⟩
